import Mathlib

/-!
Shallow embedding of `src/virgule.js` (emulsiV): the Virgule core, the Bus,
the abstract Device contract and the concrete Memory device.

JavaScript numbers in this code are always integers (addresses, register
values, bytes), so they are embedded as `Int`.  The JavaScript bitwise
operators (`&`, `|`, `^`, `<<`, `>>`, `>>>`) coerce their operands to 32-bit
and are embedded explicitly below.  The helper module `int32.js` and the
decoder `binary.js` are imported by `virgule.js` but are not part of the
sources; the `int32` primitives are modelled from the specification and the
decoder is kept abstract (a parameter of `step`).
-/

namespace EmulsiV

/-- Modelled from the spec: `int32.js` is not among the sources; §4.1 gives
the contract `unsigned(word)`: reinterpret the low 32 bits of an arbitrary
integer as unsigned 32-bit (range `0..2^32-1`). -/
def int32.unsigned (x : Int) : Int := x % 4294967296

/-- Modelled from the spec: `int32.js` is not among the sources; §4.1 gives
the contract `signed(word)`: reinterpret the low 32 bits of an arbitrary
integer as two's-complement signed 32-bit. -/
def int32.signed (x : Int) : Int :=
  if x % 4294967296 < 2147483648 then x % 4294967296 else x % 4294967296 - 4294967296

/-- Modelled from the spec: `unsignedSlice(value, hi, lo)`: extract bits
`[lo, hi]` inclusive of the 32-bit word, then zero-extend. -/
def int32.unsignedSlice (value hi lo : Int) : Int :=
  int32.unsigned value / 2 ^ lo.toNat % 2 ^ (hi - lo + 1).toNat

/-- Modelled from the spec: `signedSlice(value, hi, lo)`: extract bits
`[lo, hi]` inclusive of the 32-bit word, then sign-extend from bit `hi`. -/
def int32.signedSlice (value hi lo : Int) : Int :=
  let u := int32.unsignedSlice value hi lo
  if u < 2 ^ (hi - lo).toNat then u else u - 2 ^ (hi - lo + 1).toNat

/-- JavaScript `a & b`: both operands are coerced to 32 bits, the result is
a signed 32-bit integer. -/
def jsAnd (a b : Int) : Int :=
  int32.signed (((int32.unsigned a).toNat &&& (int32.unsigned b).toNat : Nat) : Int)

/-- JavaScript `a | b`. -/
def jsOr (a b : Int) : Int :=
  int32.signed (((int32.unsigned a).toNat ||| (int32.unsigned b).toNat : Nat) : Int)

/-- JavaScript `a ^ b`. -/
def jsXor (a b : Int) : Int :=
  int32.signed (((int32.unsigned a).toNat ^^^ (int32.unsigned b).toNat : Nat) : Int)

/-- JavaScript `a << b`: shift count is the low 5 bits of `b`, result signed
32-bit. -/
def jsShl (a b : Int) : Int :=
  int32.signed ((((int32.unsigned a).toNat <<< ((int32.unsigned b).toNat % 32)) : Nat) : Int)

/-- JavaScript `a >>> b`: logical right shift, unsigned result. -/
def jsShrU (a b : Int) : Int :=
  (((int32.unsigned a).toNat >>> ((int32.unsigned b).toNat % 32) : Nat) : Int)

/-- JavaScript `a >> b`: arithmetic right shift of the signed 32-bit value,
i.e. floor division by a power of two. -/
def jsShrA (a b : Int) : Int :=
  (int32.signed a).ediv (2 ^ ((int32.unsigned b).toNat % 32))

/-- The abstract `Device` of `virgule.js`, over a state type `σ`.  The JS
class carries `size`, `firstAddress`, `lastAddress` and mutable state; the
overridable methods `localRead`, `localWrite`, `reset` and `irq` become
function-valued fields. -/
structure Device (σ : Type) where
  size : Int
  firstAddress : Int
  lastAddress : Int
  state : σ
  localRead : σ → Int → Int → Int
  localWrite : σ → Int → Int → Int → σ
  resetFn : σ → σ
  irqFn : σ → Bool

/-- The `Device` constructor: `firstAddress` and `lastAddress` are reduced
to unsigned 32-bit, `lastAddress = unsigned(firstAddress + size - 1)`. -/
def Device.make (σ : Type) (firstAddress size : Int) (state : σ)
    (localRead : σ → Int → Int → Int) (localWrite : σ → Int → Int → Int → σ)
    (resetFn : σ → σ) (irqFn : σ → Bool) : Device σ :=
  { size := size
    firstAddress := int32.unsigned firstAddress
    lastAddress := int32.unsigned (firstAddress + size - 1)
    state := state
    localRead := localRead
    localWrite := localWrite
    resetFn := resetFn
    irqFn := irqFn }

/-- `Device.accepts(address, size)`. -/
def Device.accepts {σ : Type} (d : Device σ) (address size : Int) : Bool :=
  decide (d.firstAddress ≤ address) &&
  decide (int32.unsigned (address + size - 1) ≤ d.lastAddress)

/-- `Device.read(address, size, signed)`. -/
def Device.read {σ : Type} (d : Device σ) (address size : Int) (sgn : Bool) : Int :=
  let raw := d.localRead d.state (int32.unsigned (address - d.firstAddress)) size
  if sgn then int32.signedSlice raw (size * 8 - 1) 0
  else int32.unsignedSlice raw (size * 8 - 1) 0

/-- `Device.write(address, size, value)`. -/
def Device.write {σ : Type} (d : Device σ) (address size value : Int) : Device σ :=
  { d with state := d.localWrite d.state (int32.unsigned (address - d.firstAddress)) size value }

/-- The `Bus` of `virgule.js`: an ordered list of devices and the
last-operation error flag. -/
structure Bus (σ : Type) where
  devices : List (Device σ)
  error : Bool

/-- `Bus.getDevices(address, size)`: the devices accepting the
unsigned-resolved address. -/
def Bus.getDevices {σ : Type} (bus : Bus σ) (address size : Int) : List (Device σ) :=
  bus.devices.filter (fun dev => dev.accepts (int32.unsigned address) size)

/-- `Bus.read(address, size, signed)`: sets `error` iff no device accepts,
otherwise delegates to the first accepting device.  Returns the value read
and the updated bus. -/
def Bus.read {σ : Type} (bus : Bus σ) (address size : Int) (sgn : Bool) : Int × Bus σ :=
  let address := int32.unsigned address
  match bus.getDevices address size with
  | [] => (0, { bus with error := true })
  | d :: _ => (d.read address size sgn, { bus with error := false })

/-- `Bus.write(address, size, value)`: sets `error` iff no device accepts,
and invokes `write` on every accepting device (the JS code mutates each
element of the filtered list in place, which under value semantics is a map
over the device list).  The device methods receive the raw `address`, as in
the source, where `write` does not re-resolve it. -/
def Bus.write {σ : Type} (bus : Bus σ) (address size value : Int) : Bus σ :=
  { devices := bus.devices.map (fun d =>
      if d.accepts (int32.unsigned address) size then d.write address size value else d)
    error := (bus.getDevices address size).isEmpty }

/-- `Bus.irq()`: true iff some device's interrupt line is raised. -/
def Bus.irq {σ : Type} (bus : Bus σ) : Bool :=
  bus.devices.any (fun dev => dev.irqFn dev.state)

/-- `Bus.reset()`: resets every device in registration order. -/
def Bus.reset {σ : Type} (bus : Bus σ) : Bus σ :=
  { bus with devices := bus.devices.map (fun d => { d with state := d.resetFn d.state }) }

/-- A `Uint8Array` read `data[j]`: out-of-range indexing yields `undefined`,
which the bitwise shift in `localRead` coerces to `0`. -/
def byteAt (data : List Int) (j : Int) : Int :=
  if 0 ≤ j ∧ j < (data.length : Int) then data.getD j.toNat 0 else 0

/-- A `Uint8Array` write `data[j] = v`: out-of-range writes are discarded. -/
def setByteAt (data : List Int) (j v : Int) : List Int :=
  if 0 ≤ j ∧ j < (data.length : Int) then data.set j.toNat v else data

/-- `Memory.localRead(address, size)`: `result |= data[address+i] << (8*i)`
for `i = 0 .. size-1`, starting from `result = 0`. -/
def Memory.localRead (data : List Int) (address size : Int) : Int :=
  (List.range size.toNat).foldl
    (fun (result : Int) (i : Nat) =>
      jsOr result (jsShl (byteAt data (address + (i : Int))) (8 * (i : Int)))) 0

/-- `Memory.localWrite(address, size, value)`:
`data[address+i] = unsignedSlice(value, 8*i+7, 8*i)` for `i = 0 .. size-1`. -/
def Memory.localWrite (data : List Int) (address size value : Int) : List Int :=
  (List.range size.toNat).foldl
    (fun (d : List Int) (i : Nat) => setByteAt d (address + (i : Int))
      (int32.unsignedSlice value (8 * (i : Int) + 7) (8 * (i : Int)))) data

/-- The `Memory` constructor: a `Device` whose backing store is a
zero-initialized byte array of `size` bytes. -/
def Memory.make (firstAddress size : Int) : Device (List Int) :=
  Device.make (List Int) firstAddress size (List.replicate size.toNat 0)
    Memory.localRead Memory.localWrite (fun s => s) (fun _ => false)

/-- ALU operand-A selector tag (`instr.src1`), per the decoder contract. -/
inductive Src1 | pc | x1
deriving DecidableEq

/-- ALU operand-B selector tag (`instr.src2`). -/
inductive Src2 | imm | x2
deriving DecidableEq

/-- ALU operation tag (`instr.aluOp`). -/
inductive AluOp | b | add | sll | slt | sltu | xor | srl | sra | or | and | sub
deriving DecidableEq

/-- Branch condition tag (`instr.branch`); absence of the tag means "not a
branch". -/
inductive BranchOp | al | eq | ne | lt | ge | ltu | geu
deriving DecidableEq

/-- Writeback/memory tag (`instr.wbMem`); `pcPlus` is the JS tag `"pc+"`. -/
inductive WbMem | r | pcPlus | lb | lh | lw | lbu | lhu | sb | sh | sw
deriving DecidableEq

/-- `wbMem[0] === 'l' || wbMem[0] === 's'`: the tag denotes a load or a
store. -/
def WbMem.isLoadStore : WbMem → Bool
  | .r | .pcPlus => false
  | _ => true

/-- The decoded-instruction record produced by the external decoder
(`bin.fromWord`), as described by the decoder contract in the spec. -/
structure Instr where
  name : String
  rs1 : Int
  rs2 : Int
  rd : Int
  imm : Int
  src1 : Src1
  src2 : Src2
  aluOp : AluOp
  branch : Option BranchOp
  wbMem : Option WbMem

/-- The trace record returned by `Virgule.step`. -/
structure Trace where
  instr : Instr
  pc : Int
  incPc : Int
  irq : Bool
  x1 : Int
  x2 : Int
  a : Int
  b : Int
  r : Int
  l : Int
  taken : Bool
  fetchError : Bool
  loadStoreError : Bool

/-- The `Virgule` core: register file, `pc`, `mepc`, interrupt state and the
bus it owns. -/
structure Virgule (σ : Type) where
  x : List Int
  pc : Int
  mepc : Int
  irqState : Bool
  bus : Bus σ

/-- `Virgule.getX(index)`: register 0 and out-of-range indices read as 0. -/
def Virgule.getX {σ : Type} (c : Virgule σ) (index : Int) : Int :=
  if 0 < index ∧ index < (c.x.length : Int) then c.x.getD index.toNat 0 else 0

/-- `Virgule.setX(index, value)`: writes to register 0 and out-of-range
indices are discarded; stored values pass through `int32.signed`. -/
def Virgule.setX {σ : Type} (c : Virgule σ) (index value : Int) : Virgule σ :=
  if 0 < index ∧ index < (c.x.length : Int) then
    { c with x := c.x.set index.toNat (int32.signed value) }
  else c

/-- `Virgule.setPc(value)`: `pc = unsigned(value & ~3)` (note `~3 = -4`). -/
def Virgule.setPc {σ : Type} (c : Virgule σ) (value : Int) : Virgule σ :=
  { c with pc := int32.unsigned (jsAnd value (-4)) }

/-- `Virgule.reset()`: zero every register, `pc = 0`, `mepc = 0`.  Neither
`irqState` nor the bus is touched. -/
def Virgule.reset {σ : Type} (c : Virgule σ) : Virgule σ :=
  { c with x := List.replicate c.x.length 0, pc := 0, mepc := 0 }

/-- ALU operand A (`step`, "ALU operand A" switch). -/
def aluA (instr : Instr) (pc x1 : Int) : Int :=
  match instr.src1 with
  | .pc => pc
  | .x1 => x1

/-- ALU operand B (`step`, "ALU operand B" switch). -/
def aluB (instr : Instr) (x2 : Int) : Int :=
  match instr.src2 with
  | .imm => instr.imm
  | .x2 => x2

/-- ALU result (`step`, "ALU operation" switch). -/
def aluR (instr : Instr) (a b : Int) : Int :=
  match instr.aluOp with
  | .b => b
  | .add => int32.signed (a + b)
  | .sll => jsShl a b
  | .slt => if int32.signed a < int32.signed b then 1 else 0
  | .sltu => if int32.unsigned a < int32.unsigned b then 1 else 0
  | .xor => jsXor a b
  | .srl => jsShrU a b
  | .sra => jsShrA a b
  | .or => jsOr a b
  | .and => jsAnd a b
  | .sub => int32.signed (a - b)

/-- Branch decision (`step`, "Branch condition" switch). -/
def branchTaken (instr : Instr) (x1 x2 : Int) : Bool :=
  match instr.branch with
  | some .al => true
  | some .eq => decide (x1 = x2)
  | some .ne => decide (x1 ≠ x2)
  | some .lt => decide (x1 < x2)
  | some .ge => decide (x2 ≤ x1)
  | some .ltu => decide (int32.unsigned x1 < int32.unsigned x2)
  | some .geu => decide (int32.unsigned x2 ≤ int32.unsigned x1)
  | none => false

/-- Register/memory update (`step`, "Register/memory update" switch): only
the register file, the bus and the loaded value `l` are affected; the
result is the triple (new register file, new bus, `l`). -/
def writeback {σ : Type} (c : Virgule σ) (bus1 : Bus σ) (instr : Instr)
    (r incPc x2 : Int) : List Int × Bus σ × Int :=
  match instr.wbMem with
  | some .r => ((c.setX instr.rd r).x, bus1, 0)
  | some .pcPlus => ((c.setX instr.rd incPc).x, bus1, 0)
  | some .lb => let p := bus1.read r 1 true; ((c.setX instr.rd p.1).x, p.2, p.1)
  | some .lh => let p := bus1.read r 2 true; ((c.setX instr.rd p.1).x, p.2, p.1)
  | some .lw => let p := bus1.read r 4 true; ((c.setX instr.rd p.1).x, p.2, p.1)
  | some .lbu => let p := bus1.read r 1 false; ((c.setX instr.rd p.1).x, p.2, p.1)
  | some .lhu => let p := bus1.read r 2 false; ((c.setX instr.rd p.1).x, p.2, p.1)
  | some .sb => (c.x, bus1.write r 1 x2, 0)
  | some .sh => (c.x, bus1.write r 2 x2, 0)
  | some .sw => (c.x, bus1.write r 4 x2, 0)
  | none => (c.x, bus1, 0)

/-- `Virgule.step()`, with the external decoder `bin.fromWord` passed as the
parameter `decode`.  Returns the post-cycle core and the trace record. -/
def Virgule.step {σ : Type} (decode : Int → Instr) (c : Virgule σ) : Virgule σ × Trace :=
  let savedPc := c.pc
  let incPc := c.pc + 4
  let irq := c.bus.irq
  -- Fetch
  let fetch := c.bus.read c.pc 4 false
  let word := fetch.1
  let bus1 := fetch.2
  let fetchError := bus1.error
  -- Decode
  let instr := decode word
  -- Execute
  let x1 := c.getX instr.rs1
  let x2 := c.getX instr.rs2
  let a := aluA instr c.pc x1
  let b := aluB instr x2
  let r := aluR instr a b
  let taken := branchTaken instr x1 x2
  let wb := writeback c bus1 instr r incPc x2
  let cw : Virgule σ := { c with x := wb.1, bus := wb.2.1 }
  let l := wb.2.2
  let loadStoreError :=
    (match instr.wbMem with
      | some w => w.isLoadStore
      | none => false) && cw.bus.error
  -- Program counter update
  let enteringIrq := irq && !cw.irqState
  let final :=
    if enteringIrq then
      { cw.setPc 4 with mepc := if taken then r else incPc, irqState := true }
    else if instr.name = "mret" then
      { cw.setPc cw.mepc with irqState := false }
    else if taken then
      cw.setPc r
    else
      cw.setPc incPc
  (final,
    { instr := instr, pc := savedPc, incPc := incPc, irq := enteringIrq,
      x1 := x1, x2 := x2, a := a, b := b, r := r, l := l, taken := taken,
      fetchError := fetchError, loadStoreError := loadStoreError })

/-! ### Concrete fixtures used by counterexamples and witnesses -/

/-- A `Memory` device over an arbitrary current byte array. -/
def memWith (firstAddress size : Int) (data : List Int) : Device (List Int) :=
  { Memory.make firstAddress size with state := data }

/-- A concrete device covering `[0, 15]`. -/
def dev16 : Device Unit :=
  Device.make Unit 0 16 () (fun _ _ _ => 0) (fun s _ _ _ => s) (fun s => s) (fun _ => false)

/-- A device whose interrupt line is always raised. -/
def irqDev : Device Unit :=
  Device.make Unit 0 0 () (fun _ _ _ => 0) (fun s _ _ _ => s) (fun s => s) (fun _ => true)

/-- A do-nothing decoded instruction. -/
def nopInstr : Instr :=
  { name := "nop", rs1 := 0, rs2 := 0, rd := 0, imm := 0,
    src1 := .x1, src2 := .imm, aluOp := .b, branch := none, wbMem := none }

/-- A core, not in a handler, whose bus requests an interrupt. -/
def coreIrq : Virgule Unit :=
  { x := [0, 0], pc := 40, mepc := 0, irqState := false,
    bus := { devices := [irqDev], error := false } }

/-- The decoded return-from-interrupt instruction. -/
def mretInstr : Instr :=
  { name := "mret", rs1 := 0, rs2 := 0, rd := 0, imm := 0,
    src1 := .x1, src2 := .imm, aluOp := .b, branch := none, wbMem := none }

/-- A core holding the unaligned saved address `mepc = 5` (reachable: the
entry path saves the raw ALU result of a taken branch into `mepc`). -/
def coreMret : Virgule Unit :=
  { x := [], pc := 0, mepc := 5, irqState := false,
    bus := { devices := [], error := false } }

/-- A core inside a handler (`irqState = true`), with interrupt pending. -/
def coreHandler : Virgule Unit :=
  { x := [0, 0], pc := 20, mepc := 8, irqState := true,
    bus := { devices := [irqDev], error := false } }

/-! ### Basic facts about the 32-bit primitives -/

theorem int32.unsigned_nonneg (x : Int) : 0 ≤ int32.unsigned x :=
  Int.emod_nonneg x (by norm_num)

theorem int32.unsigned_lt (x : Int) : int32.unsigned x < 4294967296 :=
  Int.emod_lt_of_pos x (by norm_num)

theorem int32.unsigned_eq_of_range {x : Int} (h0 : 0 ≤ x) (h1 : x < 4294967296) :
    int32.unsigned x = x :=
  Int.emod_eq_of_lt h0 h1

theorem int32.unsigned_idem (x : Int) :
    int32.unsigned (int32.unsigned x) = int32.unsigned x :=
  Int.emod_emod_of_dvd x dvd_rfl

theorem int32.unsigned_signed (x : Int) :
    int32.unsigned (int32.signed x) = int32.unsigned x := by
  unfold int32.signed int32.unsigned
  split <;> omega

theorem int32.toNat_unsigned_cast (x : Int) :
    (((int32.unsigned x).toNat : Nat) : Int) = int32.unsigned x :=
  Int.toNat_of_nonneg (int32.unsigned_nonneg x)

/-- Low two bits of a 32-bit word survive nothing through the `~3` mask:
masking an already 4-aligned 32-bit value is the identity. -/
theorem land_mask_eq_self {n : Nat} (h4 : n % 4 = 0) (h32 : n < 4294967296) :
    n &&& 4294967292 = n := by
  apply Nat.eq_of_testBit_eq
  intro i
  rw [Nat.testBit_land]
  match i with
  | 0 =>
    have h2 : n % 2 = 0 := by omega
    simp [Nat.testBit_zero, h2]
  | 1 =>
    have h2 : n / 2 % 2 = 0 := by omega
    simp [Nat.testBit_add_one, Nat.testBit_zero, h2]
  | (i + 2) =>
    rcases Nat.lt_or_ge (i + 2) 32 with h | h
    · have hm : (4294967292 : Nat) = (2 ^ 30 - 1) <<< 2 := by norm_num [Nat.shiftLeft_eq]
      have ht : Nat.testBit 4294967292 (i + 2) = true := by
        rw [hm, Nat.testBit_shiftLeft, Nat.testBit_two_pow_sub_one]
        simp only [Bool.and_eq_true, decide_eq_true_eq]
        omega
      simp [ht]
    · have hpow : (4294967296 : Nat) ≤ 2 ^ (i + 2) := by
        calc (4294967296 : Nat) = 2 ^ 32 := by norm_num
          _ ≤ 2 ^ (i + 2) := Nat.pow_le_pow_right (by norm_num) h
      have ht : Nat.testBit n (i + 2) = false :=
        Nat.testBit_lt_two_pow (lt_of_lt_of_le h32 hpow)
      simp [ht]

theorem unsigned_jsAnd_neg4 (v : Int) :
    int32.unsigned (jsAnd v (-4)) =
      (((int32.unsigned v).toNat &&& 4294967292 : Nat) : Int) := by
  unfold jsAnd
  rw [int32.unsigned_signed]
  have hm : (int32.unsigned (-4)).toNat = 4294967292 := by decide
  rw [hm]
  refine int32.unsigned_eq_of_range (by positivity) ?_
  have hle : ((int32.unsigned v).toNat &&& 4294967292 : Nat) ≤ 4294967292 :=
    Nat.and_le_right
  exact_mod_cast lt_of_le_of_lt hle (by norm_num)

/-- Every value of the form `setPc` produces — `unsigned(value & ~3)` — is an
unsigned 32-bit multiple of 4. -/
theorem setPc_val_aligned (v : Int) :
    0 ≤ int32.unsigned (jsAnd v (-4)) ∧
    int32.unsigned (jsAnd v (-4)) < 4294967296 ∧
    (4 : Int) ∣ int32.unsigned (jsAnd v (-4)) := by
  refine ⟨int32.unsigned_nonneg _, int32.unsigned_lt _, ?_⟩
  rw [unsigned_jsAnd_neg4]
  have hmod : ∀ k : Nat, k &&& 3 = k % 4 := by
    intro k
    have := Nat.and_pow_two_sub_one_eq_mod k 2
    norm_num at this
    exact this
  have hz : ((int32.unsigned v).toNat &&& 4294967292) % 4 = 0 := by
    rw [← hmod, Nat.and_assoc, hmod]
    simp
  exact Int.natCast_dvd_natCast.mpr (Nat.dvd_of_mod_eq_zero hz)

/-- Masking with `~3` is the identity on 4-aligned unsigned 32-bit values. -/
theorem jsAnd_neg4_of_aligned {v : Int} (h0 : 0 ≤ v) (h1 : v < 4294967296)
    (h4 : (4 : Int) ∣ v) : int32.unsigned (jsAnd v (-4)) = v := by
  rw [unsigned_jsAnd_neg4, int32.unsigned_eq_of_range h0 h1]
  rw [land_mask_eq_self (by omega) (by omega)]
  exact Int.toNat_of_nonneg h0

/-! ### Claim theorems -/

/-- C3: after every `step` and after `reset`, `pc` is an unsigned 32-bit
value that is a multiple of 4: every `pc` write inside `step` goes through
`setPc`, which reduces to unsigned 32-bit range and clears the low two bits,
and `reset` sets `pc` to 0. -/
theorem pc_aligned_after_step_and_reset {σ : Type} (decode : Int → Instr) (c : Virgule σ) :
    (0 ≤ (c.step decode).1.pc ∧ (c.step decode).1.pc < 4294967296 ∧
      (4 : Int) ∣ (c.step decode).1.pc) ∧
    (c.reset.pc = 0 ∧ (4 : Int) ∣ c.reset.pc) := by
  refine ⟨?_, rfl, by norm_num [Virgule.reset]⟩
  simp only [Virgule.step, Virgule.setPc]
  split
  · exact setPc_val_aligned 4
  · split
    · exact setPc_val_aligned _
    · split
      · exact setPc_val_aligned _
      · exact setPc_val_aligned _

/-- C4: `setX` discards writes to register 0 and to any out-of-range index,
`getX` reads those indices as 0, and in particular `getX 0 = 0` in every
state, hence after every sequence of steps. -/
theorem xzero_immutable {σ : Type} (c : Virgule σ) (i v : Int)
    (h : i = 0 ∨ i < 1 ∨ (c.x.length : Int) ≤ i) :
    c.setX i v = c ∧ c.getX i = 0 ∧ c.getX 0 = 0 := by
  have hcond : ¬(0 < i ∧ i < (c.x.length : Int)) := by omega
  refine ⟨?_, ?_, ?_⟩
  · simp [Virgule.setX, hcond]
  · simp [Virgule.getX, hcond]
  · simp [Virgule.getX]

/-- C4 witness: register-write discard and zero reads evaluated on a
concrete 2-register core at the out-of-range index 5. -/
theorem xzero_immutable_witness :
    ((5 : Int) = 0 ∨ (5 : Int) < 1 ∨ ((coreIrq.x.length : Nat) : Int) ≤ 5) ∧
    (coreIrq.setX 5 77 = coreIrq ∧ coreIrq.getX 5 = 0 ∧ coreIrq.getX 0 = 0) :=
  ⟨Or.inr (Or.inr (by decide)),
    xzero_immutable coreIrq 5 77 (Or.inr (Or.inr (by decide)))⟩

theorem getDevices_unsigned {σ : Type} (bus : Bus σ) (address size : Int) :
    bus.getDevices (int32.unsigned address) size = bus.getDevices address size := by
  simp [Bus.getDevices, int32.unsigned_idem]

/-- C5: `Bus.read` sets `error` to true and returns 0 when no device accepts
the unsigned-resolved range, otherwise clears `error` and returns the first
accepting device's `read`; the resulting `error` flag is a function of this
call alone (the incoming flag does not appear), and the device list is left
unchanged. -/
theorem bus_read_spec {σ : Type} (bus : Bus σ) (address size : Int) (sgn : Bool) :
    (bus.read address size sgn).2.error = (bus.getDevices address size).isEmpty ∧
    (bus.read address size sgn).2.devices = bus.devices ∧
    (bus.read address size sgn).1 =
      (match bus.getDevices address size with
        | [] => 0
        | d :: _ => d.read (int32.unsigned address) size sgn) := by
  simp only [Bus.read, getDevices_unsigned]
  cases hd : bus.getDevices address size <;> simp

/-- C6: `Bus.write` sets `error` to true exactly when no device accepts the
unsigned-resolved range; the device at every position of the list is written
through its `write` method iff it accepts the range, and is untouched
otherwise — in particular both of two overlapping accepting devices are
written, and when none accepts no device is written. -/
theorem bus_write_broadcast {σ : Type} (bus : Bus σ) (address size value : Int) (i : Nat) :
    (bus.write address size value).error = (bus.getDevices address size).isEmpty ∧
    (bus.write address size value).devices[i]? =
      (bus.devices[i]?).map (fun d =>
        if d.accepts (int32.unsigned address) size then d.write address size value else d) := by
  unfold Bus.write
  simp

/-- C7 counterexample: for the device `[0, 15]`, the access
`accepts(0xFFFFFFFF, 2)` is accepted — `unsigned(address + size - 1)` wraps
to 0 — although the interval `[0xFFFFFFFF, 0x100000000]` does not lie within
`[0, 15]`, so `accepts` is not equivalent to interval containment. -/
theorem accepts_wrap_cex :
    ¬(dev16.accepts 4294967295 2 = true ↔
      (dev16.firstAddress ≤ 4294967295 ∧
        4294967295 + 2 - 1 ≤ dev16.lastAddress)) := by
  decide

/-- C7 (amended): provided the access range does not wrap the 32-bit address
space (`0 ≤ address`, `1 ≤ size`, `address + size - 1 < 2^32`),
`accepts(address, size)` holds iff the whole interval
`[address, address+size-1]` lies within `[firstAddress, lastAddress]`. -/
theorem accepts_iff_of_no_wrap {σ : Type} (d : Device σ) (address asize : Int)
    (h0 : 0 ≤ address) (h1 : 1 ≤ asize) (h2 : address + asize - 1 < 4294967296) :
    d.accepts address asize = true ↔
      (d.firstAddress ≤ address ∧ address + asize - 1 ≤ d.lastAddress) := by
  unfold Device.accepts
  rw [int32.unsigned_eq_of_range (by omega) h2]
  simp [Bool.and_eq_true, decide_eq_true_iff]

/-- C7 witness: the amended equivalence evaluated on the device `[0, 15]`
and the access `[12, 15]`. -/
theorem accepts_iff_of_no_wrap_witness :
    (0 ≤ (12 : Int)) ∧ (1 ≤ (4 : Int)) ∧ ((12 : Int) + 4 - 1 < 4294967296) ∧
    (dev16.accepts 12 4 = true ↔
      (dev16.firstAddress ≤ 12 ∧ (12 : Int) + 4 - 1 ≤ dev16.lastAddress)) :=
  ⟨by norm_num, by norm_num, by norm_num,
    accepts_iff_of_no_wrap dev16 12 4 (by norm_num) (by norm_num) (by norm_num)⟩

/-- C1: when `bus.irq()` is sampled true at the start of a cycle and the
core is not already in a handler, the cycle ends with `pc = 4`,
`mepc = r` if the branch was taken and `pc + 4` otherwise, and
`irqState = true` — regardless of the decoded instruction, so interrupt
entry takes priority over mret, branch and sequential updates. -/
theorem step_interrupt_entry {σ : Type} (decode : Int → Instr) (c : Virgule σ)
    (hirq : c.bus.irq = true) (hstate : c.irqState = false) :
    (c.step decode).1.pc = 4 ∧
    (c.step decode).1.mepc =
      (if (c.step decode).2.taken then (c.step decode).2.r else c.pc + 4) ∧
    (c.step decode).1.irqState = true ∧
    (c.step decode).2.irq = true := by
  have h4 : int32.unsigned (jsAnd 4 (-4)) = 4 := by decide
  simp [Virgule.step, Virgule.setPc, hirq, hstate, h4]

/-- C1 witness: interrupt entry evaluated on a concrete core at `pc = 40`. -/
theorem step_interrupt_entry_witness :
    coreIrq.bus.irq = true ∧ coreIrq.irqState = false ∧
    ((coreIrq.step (fun _ => nopInstr)).1.pc = 4 ∧
      (coreIrq.step (fun _ => nopInstr)).1.mepc =
        (if (coreIrq.step (fun _ => nopInstr)).2.taken
          then (coreIrq.step (fun _ => nopInstr)).2.r else coreIrq.pc + 4) ∧
      (coreIrq.step (fun _ => nopInstr)).1.irqState = true ∧
      (coreIrq.step (fun _ => nopInstr)).2.irq = true) :=
  ⟨by decide, rfl, step_interrupt_entry (fun _ => nopInstr) coreIrq (by decide) rfl⟩

/-- C2 counterexample: executing mret with `mepc = 5` and no pending
interrupt ends the cycle with `pc = 4`, not with `pc = mepc`: `setPc`
clears the low two bits, so the claim "pc equal to the previously saved
mepc" fails on unaligned `mepc`. -/
theorem step_mret_pc_ne_mepc_cex :
    (coreMret.step (fun _ => mretInstr)).2.instr.name = "mret" ∧
    coreMret.bus.irq = false ∧ coreMret.irqState = false ∧
    (coreMret.step (fun _ => mretInstr)).1.pc ≠ coreMret.mepc := by
  decide

/-- C2 (amended): in a cycle that does not enter the interrupt handler
(`irqState` already true, or no interrupt request), `mepc` is never
overwritten and the trace never reports interrupt entry — in particular a
second `irq()` while already in a handler does not re-enter; if the decoded
mnemonic is `"mret"` the cycle ends with `irqState = false` and with `pc`
equal to `mepc` passed through `setPc`'s 32-bit alignment mask
(`unsigned(mepc & ~3)`), which is `mepc` itself whenever `mepc` is a
word-aligned unsigned 32-bit value; otherwise `pc` follows the normal
branch/sequential rules. -/
theorem step_no_reentry_and_mret {σ : Type} (decode : Int → Instr) (c : Virgule σ)
    (h : c.irqState = true ∨ c.bus.irq = false) :
    (c.step decode).1.mepc = c.mepc ∧
    (c.step decode).2.irq = false ∧
    (c.step decode).1.irqState =
      (if (c.step decode).2.instr.name = "mret" then false else c.irqState) ∧
    (c.step decode).1.pc =
      (if (c.step decode).2.instr.name = "mret" then int32.unsigned (jsAnd c.mepc (-4))
       else if (c.step decode).2.taken then int32.unsigned (jsAnd (c.step decode).2.r (-4))
       else int32.unsigned (jsAnd (c.pc + 4) (-4))) ∧
    ((c.step decode).2.instr.name = "mret" → 0 ≤ c.mepc → c.mepc < 4294967296 →
      (4 : Int) ∣ c.mepc → (c.step decode).1.pc = c.mepc) := by
  have he : (c.bus.irq && !c.irqState) = false := by
    rcases h with h | h <;> simp [h]
  refine ⟨?_, ?_, ?_, ?_, ?_⟩
  · simp only [Virgule.step, Virgule.setPc, he, Bool.false_eq_true, if_false]
    split
    · rfl
    · split <;> rfl
  · simp only [Virgule.step, Virgule.setPc, he, Bool.false_eq_true, if_false]
  · simp only [Virgule.step, Virgule.setPc, he, Bool.false_eq_true, if_false]
    split
    · simp_all
    · simp_all
      split <;> rfl
  · simp only [Virgule.step, Virgule.setPc, he, Bool.false_eq_true, if_false]
    split
    · simp_all
    · split <;> simp_all
  · simp only [Virgule.step, Virgule.setPc, he, Bool.false_eq_true, if_false]
    intro hname h0 h1 hdvd
    rw [if_pos hname]
    exact jsAnd_neg4_of_aligned h0 h1 hdvd

/-- C2 witness: the amended statement evaluated on the concrete mret core. -/
theorem step_no_reentry_and_mret_witness :
    (coreMret.irqState = true ∨ coreMret.bus.irq = false) ∧
    ((coreMret.step (fun _ => mretInstr)).1.mepc = coreMret.mepc ∧
      (coreMret.step (fun _ => mretInstr)).2.irq = false ∧
      (coreMret.step (fun _ => mretInstr)).1.irqState =
        (if (coreMret.step (fun _ => mretInstr)).2.instr.name = "mret" then false
         else coreMret.irqState) ∧
      (coreMret.step (fun _ => mretInstr)).1.pc =
        (if (coreMret.step (fun _ => mretInstr)).2.instr.name = "mret"
          then int32.unsigned (jsAnd coreMret.mepc (-4))
         else if (coreMret.step (fun _ => mretInstr)).2.taken
          then int32.unsigned (jsAnd (coreMret.step (fun _ => mretInstr)).2.r (-4))
         else int32.unsigned (jsAnd (coreMret.pc + 4) (-4))) ∧
      ((coreMret.step (fun _ => mretInstr)).2.instr.name = "mret" → 0 ≤ coreMret.mepc →
        coreMret.mepc < 4294967296 → (4 : Int) ∣ coreMret.mepc →
        (coreMret.step (fun _ => mretInstr)).1.pc = coreMret.mepc)) :=
  ⟨Or.inr rfl, step_no_reentry_and_mret (fun _ => mretInstr) coreMret (Or.inr rfl)⟩

/-- C10: `reset` zeroes the register file, `pc` and `mepc`, and leaves both
`irqState` and the bus untouched; consequently a reset issued while in a
handler leaves the core in handler state, and the next cycle does not take
interrupt entry (the trace reports no entry and `mepc` stays 0). -/
theorem reset_frame {σ : Type} (decode : Int → Instr) (c : Virgule σ) :
    c.reset.x = List.replicate c.x.length 0 ∧
    c.reset.pc = 0 ∧ c.reset.mepc = 0 ∧
    c.reset.irqState = c.irqState ∧
    c.reset.bus = c.bus ∧
    (c.irqState = true →
      (c.reset.step decode).2.irq = false ∧ (c.reset.step decode).1.mepc = 0) := by
  refine ⟨rfl, rfl, rfl, rfl, rfl, fun hs => ?_⟩
  constructor
  · simp only [Virgule.step, Virgule.reset, hs, Bool.not_true, Bool.and_false]
  · simp only [Virgule.step, Virgule.setPc, Virgule.reset, hs, Bool.not_true,
      Bool.and_false, Bool.false_eq_true, if_false]
    split
    · rfl
    · split <;> rfl

/-- C10 witness: the reset frame conditions evaluated on a concrete core in
handler state. -/
theorem reset_frame_witness :
    coreHandler.irqState = true ∧
    (coreHandler.reset.step (fun _ => nopInstr)).2.irq = false ∧
    (coreHandler.reset.step (fun _ => nopInstr)).1.mepc = 0 :=
  ⟨rfl, (reset_frame (fun _ => nopInstr) coreHandler).2.2.2.2.2 rfl⟩

theorem int32.signed_eq_of_small {n : Int} (h0 : 0 ≤ n) (h1 : n < 2147483648) :
    int32.signed n = n := by
  unfold int32.signed
  rw [Int.emod_eq_of_lt h0 (by omega)]
  exact if_pos h1

theorem int32.signed_congr {x y : Int} (h : int32.unsigned x = int32.unsigned y) :
    int32.signed x = int32.signed y := by
  unfold int32.signed
  unfold int32.unsigned at h
  rw [h]

theorem int32.signed_signed (x : Int) :
    int32.signed (int32.signed x) = int32.signed x :=
  int32.signed_congr (int32.unsigned_signed x)

theorem int32.toNat_unsigned_natCast {n : Nat} (h : n < 4294967296) :
    (int32.unsigned (n : Int)).toNat = n := by
  rw [int32.unsigned_eq_of_range (by positivity) (by exact_mod_cast h)]
  exact Int.toNat_natCast n

theorem jsOr_zero_left (x : Int) : jsOr 0 x = int32.signed x := by
  unfold jsOr
  have h0 : (int32.unsigned 0).toNat = 0 := by decide
  rw [h0, Nat.zero_or, int32.toNat_unsigned_cast]
  exact int32.signed_congr (int32.unsigned_idem x)

theorem jsOr_signed_signed {x y : Nat} (hx : x < 4294967296) (hy : y < 4294967296) :
    jsOr (int32.signed (x : Int)) (int32.signed (y : Int)) =
      int32.signed (((x ||| y : Nat) : Int)) := by
  unfold jsOr
  rw [int32.unsigned_signed, int32.unsigned_signed,
    int32.toNat_unsigned_natCast hx, int32.toNat_unsigned_natCast hy]

theorem jsShl_eq {a k : Int} (ha0 : 0 ≤ a) (ha : a < 4294967296) (hk0 : 0 ≤ k)
    (hk : k < 32) : jsShl a k = int32.signed ((a.toNat <<< k.toNat : Nat) : Int) := by
  unfold jsShl
  rw [int32.unsigned_eq_of_range ha0 ha, int32.unsigned_eq_of_range hk0 (by omega)]
  have hmod : k.toNat % 32 = k.toNat := Nat.mod_eq_of_lt (by omega)
  rw [hmod]

theorem lor_shift_add (a b k : Nat) (ha : a < 2 ^ k) :
    a ||| b <<< k = a + b * 2 ^ k := by
  calc a ||| b <<< k = 2 ^ k * b ||| a := by rw [Nat.shiftLeft_eq, Nat.lor_comm, mul_comm]
    _ = 2 ^ k * b + a := (Nat.mul_add_lt_is_or ha b).symm
    _ = a + b * 2 ^ k := by ring

theorem byteAt_range {data : List Int} (hb : ∀ b ∈ data, 0 ≤ b ∧ b < 256) (j : Int) :
    0 ≤ byteAt data j ∧ byteAt data j < 256 := by
  unfold byteAt
  split
  · rename_i h
    have hlt : j.toNat < data.length := by omega
    rw [List.getD_eq_getElem data 0 hlt]
    exact hb _ (List.getElem_mem hlt)
  · norm_num

theorem localRead_one (data : List Int) (off : Int) :
    Memory.localRead data off 1 = jsOr 0 (jsShl (byteAt data off) 0) := by
  unfold Memory.localRead
  rw [show (1 : Int).toNat = 1 from rfl, show List.range 1 = [0] from rfl,
    List.foldl_cons, List.foldl_nil]
  norm_num

theorem localRead_two (data : List Int) (off : Int) :
    Memory.localRead data off 2 =
      jsOr (jsOr 0 (jsShl (byteAt data off) 0)) (jsShl (byteAt data (off + 1)) 8) := by
  unfold Memory.localRead
  rw [show (2 : Int).toNat = 2 from rfl, show List.range 2 = [0, 1] from rfl,
    List.foldl_cons, List.foldl_cons, List.foldl_nil]
  norm_num

theorem localRead_four (data : List Int) (off : Int) :
    Memory.localRead data off 4 =
      jsOr (jsOr (jsOr (jsOr 0 (jsShl (byteAt data off) 0))
        (jsShl (byteAt data (off + 1)) 8)) (jsShl (byteAt data (off + 2)) 16))
        (jsShl (byteAt data (off + 3)) 24) := by
  unfold Memory.localRead
  rw [show (4 : Int).toNat = 4 from rfl, show List.range 4 = [0, 1, 2, 3] from rfl,
    List.foldl_cons, List.foldl_cons, List.foldl_cons, List.foldl_cons, List.foldl_nil]
  norm_num

set_option maxHeartbeats 1000000 in
/-- C8 (amended): `localRead` composes `size` consecutive bytes little-endian
through JavaScript 32-bit `<<` and `|`; for sizes 1 and 2 this equals the
plain sum `sum(byte[offset+i] * 2^(8*i))`, while for size 4 it is the signed
32-bit reinterpretation of that sum — negative (not the claimed non-negative
sum) whenever `byte[offset+3] ≥ 0x80`. -/
theorem localRead_little_endian (data : List Int) (off : Int)
    (hb : ∀ b ∈ data, 0 ≤ b ∧ b < 256) :
    Memory.localRead data off 1 = byteAt data off ∧
    Memory.localRead data off 2 = byteAt data off + 256 * byteAt data (off + 1) ∧
    Memory.localRead data off 4 =
      int32.signed (byteAt data off + 256 * byteAt data (off + 1) +
        65536 * byteAt data (off + 2) + 16777216 * byteAt data (off + 3)) := by
  obtain ⟨h00, h01⟩ := byteAt_range hb off
  obtain ⟨h10, h11⟩ := byteAt_range hb (off + 1)
  obtain ⟨h20, h21⟩ := byteAt_range hb (off + 2)
  obtain ⟨h30, h31⟩ := byteAt_range hb (off + 3)
  set b0 := byteAt data off with hb0
  set b1 := byteAt data (off + 1) with hb1
  set b2 := byteAt data (off + 2) with hb2
  set b3 := byteAt data (off + 3) with hb3
  have e0 : jsShl b0 0 = int32.signed ((b0.toNat <<< 0 : Nat) : Int) :=
    jsShl_eq h00 (by omega) (by norm_num) (by norm_num)
  have e1 : jsShl b1 8 = int32.signed ((b1.toNat <<< 8 : Nat) : Int) :=
    jsShl_eq h10 (by omega) (by norm_num) (by norm_num)
  have e2 : jsShl b2 16 = int32.signed ((b2.toNat <<< 16 : Nat) : Int) :=
    jsShl_eq h20 (by omega) (by norm_num) (by norm_num)
  have e3 : jsShl b3 24 = int32.signed ((b3.toNat <<< 24 : Nat) : Int) :=
    jsShl_eq h30 (by omega) (by norm_num) (by norm_num)
  have hn0 : b0.toNat < 256 := by omega
  have hn1 : b1.toNat < 256 := by omega
  have hn2 : b2.toNat < 256 := by omega
  have hn3 : b3.toNat < 256 := by omega
  have t0 : jsOr 0 (jsShl b0 0) = int32.signed ((b0.toNat : Nat) : Int) := by
    rw [jsOr_zero_left, e0, int32.signed_signed, Nat.shiftLeft_zero]
  have t1 : jsOr (jsOr 0 (jsShl b0 0)) (jsShl b1 8) =
      int32.signed (((b0.toNat + b1.toNat * 256 : Nat) : Nat) : Int) := by
    rw [t0, e1, jsOr_signed_signed (by omega) (by simp [Nat.shiftLeft_eq]; omega),
      lor_shift_add _ _ 8 (by omega)]
    norm_num
  have t2 : jsOr (jsOr (jsOr 0 (jsShl b0 0)) (jsShl b1 8)) (jsShl b2 16) =
      int32.signed (((b0.toNat + b1.toNat * 256 + b2.toNat * 65536 : Nat) : Nat) : Int) := by
    rw [t1, e2, jsOr_signed_signed (by omega) (by simp [Nat.shiftLeft_eq]; omega),
      lor_shift_add _ _ 16 (by omega)]
    norm_num
  have t3 : jsOr (jsOr (jsOr (jsOr 0 (jsShl b0 0)) (jsShl b1 8)) (jsShl b2 16)) (jsShl b3 24) =
      int32.signed (((b0.toNat + b1.toNat * 256 + b2.toNat * 65536 + b3.toNat * 16777216 : Nat) : Nat) : Int) := by
    rw [t2, e3, jsOr_signed_signed (by omega) (by simp [Nat.shiftLeft_eq]; omega),
      lor_shift_add _ _ 24 (by omega)]
    norm_num
  have hc0 : ((b0.toNat : Nat) : Int) = b0 := Int.toNat_of_nonneg h00
  have hc1 : ((b1.toNat : Nat) : Int) = b1 := Int.toNat_of_nonneg h10
  have hc2 : ((b2.toNat : Nat) : Int) = b2 := Int.toNat_of_nonneg h20
  have hc3 : ((b3.toNat : Nat) : Int) = b3 := Int.toNat_of_nonneg h30
  refine ⟨?_, ?_, ?_⟩
  · rw [localRead_one, ← hb0, t0, hc0]
    exact int32.signed_eq_of_small h00 (by omega)
  · have hc01 : ((b0.toNat + b1.toNat * 256 : Nat) : Int) = b0 + 256 * b1 := by
      push_cast [hc0, hc1]
      ring
    rw [localRead_two, ← hb0, ← hb1, t1, hc01]
    exact int32.signed_eq_of_small (by omega) (by omega)
  · have hcs : ((b0.toNat + b1.toNat * 256 + b2.toNat * 65536 + b3.toNat * 16777216 : Nat) : Int) =
        b0 + 256 * b1 + 65536 * b2 + 16777216 * b3 := by
      push_cast [hc0, hc1, hc2, hc3]
      ring
    rw [localRead_four, ← hb0, ← hb1, ← hb2, ← hb3, t3, hcs]



set_option maxHeartbeats 1600000 in
/-- C9 (amended): for a `Memory` device of size at least 1 whose byte array
has that length, at every accepted address `A`, after a 1-byte bus write of
`0xFF` at `A`, a signed 1-byte bus read at `A` (an `lb` load) yields `-1`
and an unsigned 1-byte bus read (an `lbu` load) yields `255`. -/
theorem store_byte_lb_lbu (base msize A : Int) (st : List Int) (e : Bool)
    (hlen : (st.length : Int) = msize) (hsz : 1 ≤ msize)
    (hacc : (memWith base msize st).accepts (int32.unsigned A) 1 = true) :
    (((Bus.mk [memWith base msize st] e).write A 1 255).read A 1 true).1 = -1 ∧
    (((Bus.mk [memWith base msize st] e).write A 1 255).read A 1 false).1 = 255 := by
  have hu : int32.unsigned A = A % 4294967296 := rfl
  have hf : int32.unsigned base = base % 4294967296 := rfl
  have hL : int32.unsigned (base + msize - 1) = (base + msize - 1) % 4294967296 := rfl
  have hacc' : (int32.unsigned base ≤ int32.unsigned A ∧
      int32.unsigned (int32.unsigned A + 1 - 1) ≤ int32.unsigned (base + msize - 1)) := by
    unfold Device.accepts at hacc
    simp only [Bool.and_eq_true, decide_eq_true_eq] at hacc
    exact hacc
  have hid : int32.unsigned (int32.unsigned A + 1 - 1) = int32.unsigned A := by
    have h : int32.unsigned A + 1 - 1 = int32.unsigned A := by ring
    rw [h, int32.unsigned_idem]
  rw [hid] at hacc'
  have hoff : 0 ≤ int32.unsigned A - int32.unsigned base ∧
      int32.unsigned A - int32.unsigned base < msize := by
    obtain ⟨h1, h2⟩ := hacc'
    rw [hu, hf] at h1 ⊢
    rw [hu, hL] at h2
    omega
  have hwoff : int32.unsigned (A - int32.unsigned base) =
      int32.unsigned A - int32.unsigned base := by
    rw [hu, hf]
    unfold int32.unsigned
    omega
  -- the write resolves to the single accepting device
  have hwrite : ((Bus.mk [memWith base msize st] e).write A 1 255) =
      Bus.mk [(memWith base msize st).write A 1 255] false := by
    unfold Bus.write Bus.getDevices
    simp [hacc]
  set n : Nat := (int32.unsigned A - int32.unsigned base).toNat with hn
  have hslice : int32.unsignedSlice 255 (8 * ((0 : Nat) : Int) + 7) (8 * ((0 : Nat) : Int)) = 255 := by
    norm_num
    decide
  -- the state of the written device
  have hst : ((memWith base msize st).write A 1 255).state = st.set n 255 := by
    show Memory.localWrite st (int32.unsigned (A - int32.unsigned base)) 1 255 = st.set n 255
    unfold Memory.localWrite
    rw [show (1 : Int).toNat = 1 from rfl, show List.range 1 = [0] from rfl,
      List.foldl_cons, List.foldl_nil, hslice]
    unfold setByteAt
    rw [show int32.unsigned (A - int32.unsigned base) + ((0 : Nat) : Int) =
        int32.unsigned (A - int32.unsigned base) from by norm_num]
    rw [hwoff]
    rw [if_pos (by omega)]
  -- reading through the bus hits the same device
  have haccW : ((memWith base msize st).write A 1 255).accepts
      (int32.unsigned (int32.unsigned A)) 1 = true := by
    rw [int32.unsigned_idem]
    exact hacc
  have hfil : List.filter (fun dev => dev.accepts (int32.unsigned (int32.unsigned A)) 1)
      [(memWith base msize st).write A 1 255] = [(memWith base msize st).write A 1 255] := by
    simp [haccW]
  have hread : ∀ sgn : Bool,
      ((Bus.mk [(memWith base msize st).write A 1 255] false).read A 1 sgn).1 =
        ((memWith base msize st).write A 1 255).read (int32.unsigned A) 1 sgn := by
    intro sgn
    unfold Bus.read Bus.getDevices
    dsimp only
    rw [hfil]
  -- the raw byte read back
  have hbyte : byteAt (st.set n 255) (int32.unsigned A - int32.unsigned base) = 255 := by
    unfold byteAt
    rw [if_pos (by rw [List.length_set]; omega)]
    rw [← hn, List.getD_eq_getElem _ 0 (by rw [List.length_set]; omega)]
    exact List.getElem_set_self (by rw [List.length_set]; omega)
  have hfst : ((memWith base msize st).write A 1 255).firstAddress = int32.unsigned base := rfl
  have hlrd : ((memWith base msize st).write A 1 255).localRead = Memory.localRead := rfl
  have hoffR : int32.unsigned (int32.unsigned A - int32.unsigned base) =
      int32.unsigned A - int32.unsigned base := by
    rw [hu, hf]
    unfold int32.unsigned
    omega
  have hdread : ∀ sgn : Bool,
      ((memWith base msize st).write A 1 255).read (int32.unsigned A) 1 sgn =
        (if sgn then int32.signedSlice 255 (1 * 8 - 1) 0
         else int32.unsignedSlice 255 (1 * 8 - 1) 0) := by
    intro sgn
    unfold Device.read
    rw [hlrd, hst, hfst, hoffR, localRead_one, hbyte,
      show jsOr 0 (jsShl 255 0) = 255 from by decide]
  constructor
  · rw [hwrite, hread, hdread]
    decide
  · rw [hwrite, hread, hdread]
    decide


/-- C8 counterexample: with the four stored bytes all `0xFF`,
`localRead(0, 4)` returns `-1` — a negative value, not the little-endian sum
`0xFFFFFFFF` the claim asserts (JavaScript `|`/`<<` are signed 32-bit). -/
theorem localRead_negative_cex :
    Memory.localRead [255, 255, 255, 255] 0 4 = -1 ∧
    ¬(0 ≤ Memory.localRead [255, 255, 255, 255] 0 4) ∧
    Memory.localRead [255, 255, 255, 255] 0 4 ≠
      255 + 255 * 2 ^ 8 + 255 * 2 ^ 16 + 255 * 2 ^ 24 := by
  decide

/-- C8 witness: the amended statement evaluated on the all-`0xFF` array. -/
theorem localRead_little_endian_witness :
    (∀ b ∈ ([255, 255, 255, 255] : List Int), 0 ≤ b ∧ b < 256) ∧
    (Memory.localRead [255, 255, 255, 255] 0 1 = byteAt [255, 255, 255, 255] 0 ∧
      Memory.localRead [255, 255, 255, 255] 0 2 =
        byteAt [255, 255, 255, 255] 0 + 256 * byteAt [255, 255, 255, 255] (0 + 1) ∧
      Memory.localRead [255, 255, 255, 255] 0 4 =
        int32.signed (byteAt [255, 255, 255, 255] 0 +
          256 * byteAt [255, 255, 255, 255] (0 + 1) +
          65536 * byteAt [255, 255, 255, 255] (0 + 2) +
          16777216 * byteAt [255, 255, 255, 255] (0 + 3))) :=
  ⟨by decide, localRead_little_endian [255, 255, 255, 255] 0 (by decide)⟩

/-- C9 counterexample: the degenerate `Memory(0, 0)` has
`lastAddress = unsigned(-1) = 0xFFFFFFFF`, so it accepts every address, yet
its byte array is empty: the store of `0xFF` is dropped and the signed
1-byte read returns `0`, not `-1` — the claim fails without a positive-size
assumption. -/
theorem store_byte_zero_size_cex :
    (Memory.make 0 0).accepts (int32.unsigned 3) 1 = true ∧
    (((Bus.mk [Memory.make 0 0] false).write 3 1 255).read 3 1 true).1 = 0 ∧
    (((Bus.mk [Memory.make 0 0] false).write 3 1 255).read 3 1 true).1 ≠ -1 := by
  decide

/-- C9 witness: the round trip evaluated on a 4-byte memory at base 7 and
address 9. -/
theorem store_byte_lb_lbu_witness :
    (((([0, 0, 0, 0] : List Int).length : Int) = 4 ∧ (1 : Int) ≤ 4 ∧
      (memWith 7 4 [0, 0, 0, 0]).accepts (int32.unsigned 9) 1 = true) ∧
     ((((Bus.mk [memWith 7 4 [0, 0, 0, 0]] false).write 9 1 255).read 9 1 true).1 = -1 ∧
      (((Bus.mk [memWith 7 4 [0, 0, 0, 0]] false).write 9 1 255).read 9 1 false).1 = 255)) :=
  ⟨⟨by norm_num, by norm_num, by decide⟩,
    store_byte_lb_lbu 7 4 9 [0, 0, 0, 0] false (by norm_num) (by norm_num) (by decide)⟩

end EmulsiV
